import Mathlib

/-!
Shallow embedding of the Entity Resolution & Graph Merge pipeline:
`scripts/knowledge_graph/4_entity_aligner.py` (EntityAligner) and
`scripts/knowledge_graph/5_import_to_neo4j.py` (KnowledgeGraphImporter).

Machine floats of the original code are modelled by rationals; the
sentence-transformer encoder (together with the L2 normalization
performed by faiss) is an abstract parameter `encode : String → List ℚ`,
so every theorem below holds for every possible embedding function.
-/

/-- A Python value as it can appear in a pandas cell / JSON field:
`None`, float NaN, a string, or an integer (a CSV label read as a number). -/
inductive PyVal where
  | none : PyVal
  | nan : PyVal
  | str (s : String) : PyVal
  | int (n : Int) : PyVal
deriving DecidableEq, Repr

/-- Python `pd.isna`: true exactly on `None` and NaN. -/
def pyIsNA : PyVal → Bool
  | PyVal.none => true
  | PyVal.nan => true
  | _ => false

/-- Python `label == ""`: only a string compares equal to the empty string. -/
def pyEqEmpty : PyVal → Bool
  | PyVal.str s => s == ""
  | _ => false

/-- Python `str(...)` on the values we model. -/
def pyStr : PyVal → String
  | PyVal.none => "None"
  | PyVal.nan => "nan"
  | PyVal.str s => s
  | PyVal.int n => toString n

/-- Python `s.replace(":", "")`: drop every colon. -/
def removeColons (s : String) : String :=
  String.mk (s.data.filter (fun c => c != ':'))

/-- The ASCII whitespace characters stripped by Python `str.strip()`. -/
def isPyWhitespace (c : Char) : Bool :=
  c == ' ' || c == '\t' || c == '\n' || c == '\r' || c == '\x0b' || c == '\x0c'

/-- Python `s.strip()`: remove leading and trailing whitespace. -/
def pyStrip (s : String) : String :=
  String.mk (((s.data.dropWhile isPyWhitespace).reverse.dropWhile isPyWhitespace).reverse)

/-- Python `pat in s`: substring containment. -/
def strContainsSub (s pat : String) : Bool :=
  (List.range (s.data.length + 1)).any (fun i => pat.data.isPrefixOf (s.data.drop i))

/-- Model of `EntityAligner.normalize_label` (4_entity_aligner.py, lines 41-51):
empty/NaN/None input becomes the sentinel "Unknown"; any other value is
stringified, colons removed, surrounding whitespace trimmed. -/
def EntityAligner.normalize_label (label : PyVal) : String :=
  if pyIsNA label || pyEqEmpty label then "Unknown"
  else pyStrip (removeColons (pyStr label))

/-- Model of `KnowledgeGraphImporter.normalize_label` (5_import_to_neo4j.py, lines 36-46). -/
def KnowledgeGraphImporter.normalize_label (label : PyVal) : String :=
  if pyIsNA label || pyEqEmpty label then "Unknown"
  else pyStrip (removeColons (pyStr label))

example : EntityAligner.normalize_label (PyVal.str " Drug: ") = "Drug" := by decide
example : EntityAligner.normalize_label PyVal.nan = "Unknown" := by decide
example : EntityAligner.normalize_label (PyVal.int 3) = "3" := by decide

/-- Python `s.lower()` (ASCII model, as used on CSV header names). -/
def toLowerStr (s : String) : String :=
  String.mk (s.data.map Char.toLower)

/-- A row of the reference catalog after column renaming: `{id, name, label}`
(4_entity_aligner.py, lines 85-87). -/
structure RefEntity where
  id : String
  name : String
  label : String
deriving DecidableEq, Repr

/-- One pandas chunk of the reference CSV: a header and rows of cells
aligned with the header positions. -/
structure Chunk where
  header : List String
  rows : List (List PyVal)
deriving Repr

/-- Model of `next((c for c in cols if key in c.lower()), dflt)` (4_entity_aligner.py,
lines 71-73): the first column whose lowercased name contains `key`, else the
literal default. -/
def findCol (cols : List String) (key dflt : String) : String :=
  (cols.find? (fun c => strContainsSub (toLowerStr c) key)).getD dflt

/-- Column access `chunk[col]` for one row: `none` models the pandas `KeyError` when the
column is absent from the header. -/
def getCell (header : List String) (row : List PyVal) (col : String) : Option PyVal :=
  (header.findIdx? (fun c => c = col)).bind (fun i => row.get? i)

/-- One loop iteration of `load_cmekg_data` (4_entity_aligner.py, lines 66-94)
on a single chunk: fuzzy column resolution, `fillna("Unknown").astype(str)`,
`normalize_label`, selection of the three columns (a `KeyError` when a resolved
column is missing becomes `Except.error`), and the filter dropping rows whose
clean label is the sentinel "Unknown". -/
def processChunk (c : Chunk) : Except String (List RefEntity) :=
  let name_col := findCol c.header "name" "name"
  let label_col := findCol c.header "label" "label"
  let id_col := findCol c.header "id" "id"
  if label_col ∈ c.header then
    if id_col ∈ c.header ∧ name_col ∈ c.header then
      Except.ok (c.rows.filterMap (fun row =>
        let labelVal := (getCell c.header row label_col).getD PyVal.nan
        let filled : String :=
          match labelVal with
          | PyVal.none => "Unknown"
          | PyVal.nan => "Unknown"
          | v => pyStr v
        let clean := EntityAligner.normalize_label (PyVal.str filled)
        if clean = "Unknown" then none
        else some { id := pyStr ((getCell c.header row id_col).getD PyVal.nan),
                    name := pyStr ((getCell c.header row name_col).getD PyVal.nan),
                    label := clean }))
    else Except.error "KeyError"
  else Except.error "KeyError"

/-- All chunks in order; the first failure aborts (the surrounding
`try/except` of `load_cmekg_data` catches any exception for the whole scan). -/
def processChunks : List Chunk → Except String (List RefEntity)
  | [] => Except.ok []
  | c :: rest =>
    match processChunk c with
    | Except.error e => Except.error e
    | Except.ok ents =>
      match processChunks rest with
      | Except.error e => Except.error e
      | Except.ok more => Except.ok (ents ++ more)

/-- Grouping of catalog rows by clean label, keys in first-appearance order
(the `grouped_data[label].append(group)` accumulation, lines 92-106). -/
def groupByLabel (ents : List RefEntity) : List (String × List RefEntity) :=
  ents.foldl (fun gs e =>
    if gs.any (fun p => p.1 = e.label) then
      gs.map (fun p => if p.1 = e.label then (p.1, p.2 ++ [e]) else p)
    else gs ++ [(e.label, [e])]) []

/-- Outcome of a loader stage: either the process called `sys.exit(code)` or
it returned a value. -/
inductive LoadResult (α : Type) where
  | exitFatal (code : Nat) : LoadResult α
  | ok (v : α) : LoadResult α
deriving Repr

/-- Model of `EntityAligner.load_cmekg_data` (4_entity_aligner.py, lines 53-119):
a missing source file is `sys.exit(1)`; any exception while scanning chunks is
caught and also ends in `sys.exit(1)`; otherwise the grouped catalog is
returned. -/
def load_cmekg_data (pathExists : Bool) (chunks : List Chunk) :
    LoadResult (List (String × List RefEntity)) :=
  if pathExists then
    match processChunks chunks with
    | Except.error _ => LoadResult.exitFatal 1
    | Except.ok ents => LoadResult.ok (groupByLabel ents)
  else LoadResult.exitFatal 1

/-! ## Label-scoped matcher (`EntityAligner.align_vectors_faiss` / `run`) -/

/-- The constant `SIMILARITY_THRESHOLD = 0.85` (4_entity_aligner.py, line 25). -/
def SIMILARITY_THRESHOLD : ℚ := 0.85

/-- Inner product of two embedding vectors (`faiss.IndexFlatIP`). -/
def innerProd (a b : List ℚ) : ℚ :=
  (List.zipWith (fun x y => x * y) a b).sum

/-- Scan of the database vectors keeping the best (score, index) pair; a
strictly greater score replaces the incumbent, so ties keep the smaller
index — the faiss tie-break for `IndexFlatIP.search`. -/
def searchTop1Aux (q : List ℚ) : List (List ℚ) → Nat → ℚ × Nat → ℚ × Nat
  | [], _, best => best
  | v :: rest, i, best =>
    let s := innerProd v q
    if best.1 < s then searchTop1Aux q rest (i + 1) (s, i)
    else searchTop1Aux q rest (i + 1) best

/-- Model of `index.search(query, 1)` for one query vector: the best inner-product
score and the index attaining it (first index on ties). -/
def searchTop1 (db : List (List ℚ)) (q : List ℚ) : ℚ × Nat :=
  match db with
  | [] => (0, 0)
  | v :: rest => searchTop1Aux q rest 1 (innerProd v q, 0)

/-- Round-half-to-even on the integers, computed on `num`/`den` so that it
evaluates by kernel reduction. -/
def roundHalfEven (q : ℚ) : Int :=
  let n := q.num
  let d := Int.ofNat q.den
  let f := Int.fdiv n d
  let r2 := 2 * (n - f * d)
  if r2 < d then f
  else if d < r2 then f + 1
  else if f % 2 = 0 then f else f + 1

/-- Python `round(score, 4)` (round-half-to-even at four decimal places). -/
def round4 (q : ℚ) : ℚ :=
  mkRat (roundHalfEven (mkRat (q.num * 10000) q.den)) 10000

/-- One row of `all_results` (4_entity_aligner.py, lines 227-235 and 265-275):
the per-mention alignment record, with the label appended by `run`. -/
structure AlignResult where
  extracted_name : String
  matched_name : Option String
  matched_id : Option String
  score : ℚ
  action : String
  label : String
deriving DecidableEq, Repr

instance : Inhabited AlignResult :=
  ⟨{ extracted_name := "", matched_name := none, matched_id := none,
     score := 0, action := "", label := "" }⟩

/-- Model of `EntityAligner.align_vectors_faiss` (4_entity_aligner.py, lines 184-237):
embed the database names of ONE label group, embed the mentions, search the
top-1 inner-product match for each mention, and decide
`score >= threshold → Link` else `Create`. `encode` stands for
`model.encode` composed with `faiss.normalize_L2`. -/
def align_vectors_faiss (encode : String → List ℚ) (threshold : ℚ)
    (extracted_names : List String) (cmekg_df : List RefEntity) : List AlignResult :=
  let db := cmekg_df.map (fun e => encode e.name)
  extracted_names.map (fun name =>
    let sr := searchTop1 db (encode name)
    let match_record := cmekg_df.getD sr.2 { id := "", name := "", label := "" }
    { extracted_name := name
      matched_name := some match_record.name
      matched_id := some match_record.id
      score := round4 sr.1
      action := if sr.1 ≥ threshold then "🔗 Link Existing" else "🆕 Create New"
      label := "" })

/-- Lookup `label in cmekg_groups` / `cmekg_groups[label]` on the grouped catalog. -/
def lookupGroup (groups : List (String × List RefEntity)) (label : String) :
    Option (List RefEntity) :=
  (groups.find? (fun p => p.1 = label)).map (fun p => p.2)

/-- One iteration of the loop over extracted label groups in
`EntityAligner.run` (4_entity_aligner.py, lines 247-275): if the label has a
reference group, run the faiss alignment and stamp the label onto each
record; otherwise every mention becomes a Create record with score 0.0 and no
matched entity, without any embedding work. -/
def runGroup (encode : String → List ℚ) (threshold : ℚ)
    (cmekg_groups : List (String × List RefEntity)) (p : String × List String) :
    List AlignResult :=
  match lookupGroup cmekg_groups p.1 with
  | some cmekg_df =>
    (align_vectors_faiss encode threshold p.2 cmekg_df).map
      (fun r => { r with label := p.1 })
  | none =>
    p.2.map (fun name =>
      { extracted_name := name, matched_name := none, matched_id := none,
        score := 0, action := "🆕 Create New", label := p.1 })

/-- The `all_results` list accumulated by `EntityAligner.run` over every
extracted label group (before the final sort for CSV export). -/
def runAligner (encode : String → List ℚ) (threshold : ℚ)
    (cmekg_groups : List (String × List RefEntity))
    (extracted_groups : List (String × List String)) : List AlignResult :=
  extracted_groups.flatMap (runGroup encode threshold cmekg_groups)

/-! ## Importer (`5_import_to_neo4j.py`) -/

/-- The value stored in the alignment mapping:
`{target_name, action}` (5_import_to_neo4j.py, line 80). -/
structure MapInfo where
  target_name : String
  action : String
deriving DecidableEq, Repr

/-- A row of the alignment CSV as read back by pandas; `label` is a raw cell
(possibly NaN) that still has to be normalized. -/
structure AlignCsvRow where
  extracted_name : String
  label : PyVal
  action : String
  matched_name : String
deriving DecidableEq, Repr

/-- Python dict assignment `mapping[key] = v`: at most one binding per key,
a later assignment overwrites an earlier one. -/
def mapSet (m : List ((String × String) × MapInfo)) (k : String × String)
    (v : MapInfo) : List ((String × String) × MapInfo) :=
  m.filter (fun p => p.1 ≠ k) ++ [(k, v)]

/-- Python `mapping.get(key)` on the association list. -/
def lookupMap (m : List ((String × String) × MapInfo)) (k : String × String) :
    Option MapInfo :=
  (m.find? (fun p => p.1 = k)).map (fun p => p.2)

/-- Model of `KnowledgeGraphImporter.load_alignment_map` (5_import_to_neo4j.py, lines
48-83): when the CSV is missing it logs an error and RETURNS the empty
mapping (no exit); otherwise each row is keyed by
`(extracted_name, normalized label)` and the target name is the matched name
exactly when `"Link Existing" in action`. -/
def load_alignment_map (pathExists : Bool) (rows : List AlignCsvRow) :
    List ((String × String) × MapInfo) :=
  if pathExists then
    rows.foldl (fun m row =>
      let label := KnowledgeGraphImporter.normalize_label row.label
      let target_name :=
        if strContainsSub row.action "Link Existing" then row.matched_name
        else row.extracted_name
      mapSet m (row.extracted_name, label)
        { target_name := target_name, action := row.action }) []
  else []

/-- A raw extracted triple as a JSON object; `none` marks an absent key, so
that `t["field"]` on it is a `KeyError`. The Python fields `end`/`end_label`
are called `stop`/`stop_label` here because `end` is a Lean keyword. -/
structure RawTriple where
  start : Option String
  start_label : Option String
  stop : Option String
  stop_label : Option String
  type_ : Option String
deriving DecidableEq, Repr

/-- One record of an extraction file: `source_chunk.source_file` (with its
defaults already applied) and the `extraction.triples` list; `extraction =
none` models a record without the "extraction" key, which is skipped. -/
structure Item where
  source_file : String
  extraction : Option (List RawTriple)
deriving DecidableEq, Repr

/-- The cleaned triple dict appended to `cleaned_triplets`
(5_import_to_neo4j.py, lines 138-149). -/
structure Triplet where
  start_name : String
  start_label : String
  start_is_new : Bool
  stop_name : String
  stop_label : String
  stop_is_new : Bool
  rel_type : String
  source : String
deriving DecidableEq, Repr

/-- The body of the inner triple loop of `prepare_data` (5_import_to_neo4j.py,
lines 119-149): read the five required fields (`KeyError` → `Except.error`),
normalize the two labels, resolve both endpoints through the mapping with the
`(mention, Create New)` default, and build the cleaned triple. -/
def processTriple (mapping : List ((String × String) × MapInfo))
    (source_file : String) (t : RawTriple) : Except String Triplet :=
  match t.start, t.start_label, t.stop, t.stop_label, t.type_ with
  | some start_raw, some sl, some stop_raw, some el, some ty =>
    let start_label := KnowledgeGraphImporter.normalize_label (PyVal.str sl)
    let stop_label := KnowledgeGraphImporter.normalize_label (PyVal.str el)
    let start_info := (lookupMap mapping (start_raw, start_label)).getD
      { target_name := start_raw, action := "Create New" }
    let stop_info := (lookupMap mapping (stop_raw, stop_label)).getD
      { target_name := stop_raw, action := "Create New" }
    Except.ok
      { start_name := start_info.target_name
        start_label := start_label
        start_is_new := strContainsSub start_info.action "Create New"
        stop_name := stop_info.target_name
        stop_label := stop_label
        stop_is_new := strContainsSub stop_info.action "Create New"
        rel_type := ty
        source := source_file }
  | _, _, _, _, _ => Except.error "KeyError"

/-- A triple has all five required fields. -/
def wellFormed (t : RawTriple) : Bool :=
  t.start.isSome && t.start_label.isSome && t.stop.isSome &&
    t.stop_label.isSome && t.type_.isSome

/-- The triples of one item processed in order. The first failing triple
raises out of the whole per-file `try`, so the cleaned prefix survives (it was
already appended to the shared list) and the rest of the list is lost; the
Bool records whether an exception escaped. -/
def processTriples (mapping : List ((String × String) × MapInfo))
    (source_file : String) : List RawTriple → List Triplet × Bool
  | [] => ([], false)
  | t :: rest =>
    match processTriple mapping source_file t with
    | Except.ok c =>
      let r := processTriples mapping source_file rest
      (c :: r.1, r.2)
    | Except.error _ => ([], true)

/-- The items of one file: an item without "extraction" is skipped; an
exception while processing the triples of an item aborts the remainder of the
file (the `try/except` of 5_import_to_neo4j.py, lines 108-152, wraps the whole
per-file loop), keeping what was already cleaned. -/
def processItems (mapping : List ((String × String) × MapInfo)) :
    List Item → List Triplet
  | [] => []
  | it :: rest =>
    match it.extraction with
    | none => processItems mapping rest
    | some ts =>
      let r := processTriples mapping it.source_file ts
      if r.2 then r.1 else r.1 ++ processItems mapping rest

/-- Model of `KnowledgeGraphImporter.prepare_data` (5_import_to_neo4j.py, lines
85-155): a missing triples path logs an error and RETURNS the empty list;
otherwise the files are processed independently, each contributing its
cleaned triples. -/
def prepare_data (pathExists : Bool) (files : List (List Item))
    (mapping : List ((String × String) × MapInfo)) : List Triplet :=
  if pathExists then files.flatMap (processItems mapping) else []

/-! ## Graph store model (Neo4j MERGE semantics used by `batch_import`) -/

/-- A graph node: identity key `(label, name)` plus the attributes the Cypher
`ON CREATE SET` stamps at first creation. -/
structure Node where
  label : String
  name : String
  source : String
  created_at : Nat
deriving DecidableEq, Repr

/-- A graph edge, keyed by its endpoint node keys and its relation type, with
its first-creation attributes. -/
structure Edge where
  start_label : String
  start_name : String
  rel_type : String
  stop_label : String
  stop_name : String
  source : String
  confidence : String
  created_at : Nat
deriving DecidableEq, Repr

/-- The property graph state. -/
structure Graph where
  nodes : List Node
  edges : List Edge
deriving DecidableEq, Repr

/-- Is there a node with this `(label, name)` key? -/
def hasNode (g : Graph) (label name : String) : Bool :=
  g.nodes.any (fun n => n.label = label ∧ n.name = name)

/-- Cypher `MERGE (s:label) ON CREATE SET source and created_at`: create the node only if no node with the same
key exists; an existing node is left untouched. -/
def mergeNode (g : Graph) (label name : String) (now : Nat) : Graph :=
  if hasNode g label name then g
  else { g with nodes := g.nodes ++
    [{ label := label, name := name, source := "PDF_Extraction", created_at := now }] }

/-- Is there an edge with this `(subject key, type, object key)`? -/
def hasEdge (g : Graph) (t : Triplet) : Bool :=
  g.edges.any (fun e =>
    e.start_label = t.start_label ∧ e.start_name = t.start_name ∧
    e.rel_type = t.rel_type ∧ e.stop_label = t.stop_label ∧ e.stop_name = t.stop_name)

/-- Cypher `MERGE (s)-[r:rel_type]->(e) ON CREATE SET source, confidence, created_at`. -/
def mergeEdge (g : Graph) (t : Triplet) (now : Nat) : Graph :=
  if hasEdge g t then g
  else { g with edges := g.edges ++
    [{ start_label := t.start_label, start_name := t.start_name,
       rel_type := t.rel_type, stop_label := t.stop_label, stop_name := t.stop_name,
       source := t.source, confidence := "High", created_at := now }] }

/-- One `UNWIND` row of the batch-import Cypher (5_import_to_neo4j.py, lines
195-209): merge subject node, merge object node, merge the edge. -/
def writeTriplet (g : Graph) (t : Triplet) (now : Nat) : Graph :=
  mergeEdge (mergeNode (mergeNode g t.start_label t.start_name now)
    t.stop_label t.stop_name now) t now

/-- One step of the grouping loop (5_import_to_neo4j.py, lines 166-172):
insert a triple under its `(rel_type, start_label, end_label)` key, keys in
first-appearance order, values in original order. -/
def addToGroup (gs : List ((String × String × String) × List Triplet))
    (t : Triplet) : List ((String × String × String) × List Triplet) :=
  let k := (t.rel_type, t.start_label, t.stop_label)
  if gs.any (fun p => p.1 = k) then
    gs.map (fun p => if p.1 = k then (p.1, p.2 ++ [t]) else p)
  else gs ++ [(k, [t])]

/-- The dict `grouped` as built by `batch_import`. -/
def groupTriplets (ts : List Triplet) :
    List ((String × String × String) × List Triplet) :=
  ts.foldl addToGroup []

/-- Model of `KnowledgeGraphImporter.batch_import` (5_import_to_neo4j.py, lines
157-214): group the cleaned triples by `(rel_type, start_label, end_label)`
and write the rows of every group through the MERGE query, in order. -/
def batch_import (g : Graph) (ts : List Triplet) (now : Nat) : Graph :=
  (groupTriplets ts).foldl
    (fun acc p => p.2.foldl (fun a t => writeTriplet a t now) acc) g

/-- The `__main__` block of 5_import_to_neo4j.py (lines 217-232): load the
alignment mapping, prepare the cleaned triples, batch-import them. There is
no abort path: the function is total. -/
def importerMain (alignExists : Bool) (alignRows : List AlignCsvRow)
    (triplesExist : Bool) (files : List (List Item)) (g : Graph) (now : Nat) :
    Graph :=
  let mapping := load_alignment_map alignExists alignRows
  let triplets := prepare_data triplesExist files mapping
  batch_import g triplets now

/-! ## Helper lemmas -/

theorem listGetDMap_lt {α β : Type} (f : α → β) (d : β) :
    ∀ (l : List α) (i : Nat) (h : i < l.length),
      (l.map f).getD i d = f (l.get ⟨i, h⟩)
  | _ :: _, 0, _ => rfl
  | _ :: l, i + 1, h => listGetDMap_lt f d l i (Nat.lt_of_succ_lt_succ h)
  | [], i, h => absurd h (Nat.not_lt_zero i)

theorem listGetDMap_ge {α β : Type} (f : α → β) (d : β) :
    ∀ (l : List α) (i : Nat), l.length ≤ i → (l.map f).getD i d = d
  | [], i, _ => by cases i <;> rfl
  | _ :: l, i + 1, h => listGetDMap_ge f d l i (Nat.le_of_succ_le_succ h)
  | _ :: _, 0, h => absurd h (by simp)

/-! ## C10 — label normalization agrees across stages -/

/-- C10: `EntityAligner.normalize_label` and
`KnowledgeGraphImporter.normalize_label` are extensionally equal: for every
Python value (None, NaN, the empty string, numbers, strings with colons or
surrounding whitespace) the two normalizations coincide, so a label produced
at alignment time groups identically at ingestion time. -/
theorem normalize_label_agree (v : PyVal) :
    EntityAligner.normalize_label v = KnowledgeGraphImporter.normalize_label v :=
  rfl

theorem normalize_label_agree_witness :
    EntityAligner.normalize_label (PyVal.str " Drug: ") =
      KnowledgeGraphImporter.normalize_label (PyVal.str " Drug: ") :=
  normalize_label_agree (PyVal.str " Drug: ")

/-! ## C4 — lookup-miss default in the importer -/

/-- C4: resolving an endpoint whose `(mention, label)` key is absent from the
alignment mapping yields canonical name equal to the mention itself and
decision CREATE (`is_new = true`), and for a triple with all five required
fields the triple step of `prepare_data` never errors — normalization is total
over triples the matcher never saw. -/
theorem lookup_miss_default (mapping : List ((String × String) × MapInfo))
    (src s sl e el ty : String)
    (hs : lookupMap mapping
      (s, KnowledgeGraphImporter.normalize_label (PyVal.str sl)) = none)
    (he : lookupMap mapping
      (e, KnowledgeGraphImporter.normalize_label (PyVal.str el)) = none) :
    ∃ c, processTriple mapping src
        { start := some s, start_label := some sl, stop := some e,
          stop_label := some el, type_ := some ty } = Except.ok c ∧
      c.start_name = s ∧ c.start_is_new = true ∧
      c.stop_name = e ∧ c.stop_is_new = true := by
  have hrun : processTriple mapping src
      { start := some s, start_label := some sl, stop := some e,
        stop_label := some el, type_ := some ty } = Except.ok
      { start_name := s
        start_label := KnowledgeGraphImporter.normalize_label (PyVal.str sl)
        start_is_new := strContainsSub "Create New" "Create New"
        stop_name := e
        stop_label := KnowledgeGraphImporter.normalize_label (PyVal.str el)
        stop_is_new := strContainsSub "Create New" "Create New"
        rel_type := ty
        source := src } := by
    simp only [processTriple, hs, he, Option.getD_none]
  have hc : strContainsSub "Create New" "Create New" = true := by decide
  exact ⟨_, hrun, rfl, hc, rfl, hc⟩

theorem lookup_miss_default_witness :
    ∃ c, processTriple [] "doc"
        { start := some "阿司匹林", start_label := some "Drug", stop := some "头痛",
          stop_label := some "Disease", type_ := some "TREATS" } = Except.ok c ∧
      c.start_name = "阿司匹林" ∧ c.start_is_new = true ∧
      c.stop_name = "头痛" ∧ c.stop_is_new = true :=
  lookup_miss_default [] "doc" "阿司匹林" "Drug" "头痛" "Disease" "TREATS" rfl rfl

/-! ## C5 — absent-label shortcut in the matcher -/

/-- C5: a label group of the mentions with no corresponding group in the
reference catalog gets, for every mention, a record with decision CREATE and
similarity exactly 0.0 and no matched entity; and the output of the group is the
same for every embedding function — no embedding is computed for any mention
of the group. -/
theorem absent_label_create (encode : String → List ℚ) (threshold : ℚ)
    (cmekg_groups : List (String × List RefEntity)) (label : String)
    (names : List String)
    (h : lookupGroup cmekg_groups label = none) :
    runGroup encode threshold cmekg_groups (label, names) =
      names.map (fun name =>
        { extracted_name := name, matched_name := none, matched_id := none,
          score := 0, action := "🆕 Create New", label := label }) ∧
    ∀ encode2 : String → List ℚ,
      runGroup encode2 threshold cmekg_groups (label, names) =
        runGroup encode threshold cmekg_groups (label, names) := by
  constructor
  · simp only [runGroup, h]
  · intro encode2
    simp only [runGroup, h]

theorem absent_label_create_witness :
    runGroup (fun _ => [1]) SIMILARITY_THRESHOLD
        [("Drug", [{ id := "E1", name := "Aspirin", label := "Drug" }])]
        ("Protein", ["XYZ-9"]) =
      [{ extracted_name := "XYZ-9", matched_name := none, matched_id := none,
         score := 0, action := "🆕 Create New", label := "Protein" }] ∧
    ∀ encode2 : String → List ℚ,
      runGroup encode2 SIMILARITY_THRESHOLD
          [("Drug", [{ id := "E1", name := "Aspirin", label := "Drug" }])]
          ("Protein", ["XYZ-9"]) =
        runGroup (fun _ => [1]) SIMILARITY_THRESHOLD
          [("Drug", [{ id := "E1", name := "Aspirin", label := "Drug" }])]
          ("Protein", ["XYZ-9"]) :=
  absent_label_create (fun _ => [1]) SIMILARITY_THRESHOLD
    [("Drug", [{ id := "E1", name := "Aspirin", label := "Drug" }])]
    "Protein" ["XYZ-9"] (by decide)

/-! ## C9 — threshold monotonicity -/

/-- C9: with the embedding and search output fixed (the same `encode`,
mentions and reference group, hence the same best-match score per mention),
a mention whose decision is LINK at threshold `t2` also has decision LINK at
any threshold `t1 ≤ t2`: raising the threshold can only move decisions from
LINK to CREATE, never the reverse. -/
theorem threshold_monotone (encode : String → List ℚ) (names : List String)
    (cmekg_df : List RefEntity) (t1 t2 : ℚ) (h : t1 ≤ t2) (i : Nat)
    (hlink : ((align_vectors_faiss encode t2 names cmekg_df).getD i default).action =
      "🔗 Link Existing") :
    ((align_vectors_faiss encode t1 names cmekg_df).getD i default).action =
      "🔗 Link Existing" := by
  by_cases hi : i < names.length
  · unfold align_vectors_faiss at hlink ⊢
    rw [listGetDMap_lt _ _ _ _ hi] at hlink ⊢
    simp only [ge_iff_le] at hlink ⊢
    by_cases hs : t2 ≤ (searchTop1 (List.map (fun e => encode e.name) cmekg_df)
        (encode (names.get ⟨i, hi⟩))).1
    · rw [if_pos (le_trans h hs)]
    · rw [if_neg hs] at hlink
      exact absurd hlink (by decide)
  · unfold align_vectors_faiss at hlink
    rw [listGetDMap_ge _ _ _ _ (Nat.le_of_not_lt hi)] at hlink
    exact absurd hlink (by decide)

theorem threshold_monotone_witness :
    ((align_vectors_faiss (fun _ => []) 0 ["阿司匹林"]
        [{ id := "E1", name := "Aspirin", label := "Drug" }]).getD 0 default).action =
      "🔗 Link Existing" :=
  threshold_monotone (fun _ => []) ["阿司匹林"]
    [{ id := "E1", name := "Aspirin", label := "Drug" }] 0 0 le_rfl 0 (by decide)

/-! ## C6 — schema resolution failure in the catalog loader -/

theorem findCol_default (cols : List String) (key dflt : String)
    (h : ∀ col ∈ cols, strContainsSub (toLowerStr col) key = false) :
    findCol cols key dflt = dflt := by
  unfold findCol
  cases hf : cols.find? (fun c => strContainsSub (toLowerStr c) key) with
  | none => rfl
  | some c =>
    have hp := List.find?_some hf
    have hm := List.mem_of_find?_eq_some hf
    rw [h c hm] at hp
    exact absurd hp (by decide)

theorem key_not_mem (cols : List String) (key : String)
    (h : ∀ col ∈ cols, strContainsSub (toLowerStr col) key = false)
    (hk : strContainsSub (toLowerStr key) key = true) : key ∉ cols := by
  intro hmem
  rw [h key hmem] at hk
  exact absurd hk (by decide)

/-- C6: a catalog chunk whose header has no column name containing "id", or
none containing "name", or none containing "label" (case-insensitive) makes
chunk processing in the loader fail (the `KeyError` that `load_cmekg_data`
turns into a fatal exit) instead of proceeding with that page. -/
theorem schema_error_on_unresolved_columns (c : Chunk)
    (h : (∀ col ∈ c.header, strContainsSub (toLowerStr col) "id" = false) ∨
         (∀ col ∈ c.header, strContainsSub (toLowerStr col) "name" = false) ∨
         (∀ col ∈ c.header, strContainsSub (toLowerStr col) "label" = false)) :
    processChunk c = Except.error "KeyError" := by
  rcases h with h | h | h
  · have hfc : findCol c.header "id" "id" = "id" := findCol_default _ _ _ h
    have hnm : "id" ∉ c.header := key_not_mem _ _ h (by decide)
    unfold processChunk
    by_cases hl : findCol c.header "label" "label" ∈ c.header
    · rw [if_pos hl, if_neg (fun hand => hnm (hfc ▸ hand.1))]
    · rw [if_neg hl]
  · have hfc : findCol c.header "name" "name" = "name" := findCol_default _ _ _ h
    have hnm : "name" ∉ c.header := key_not_mem _ _ h (by decide)
    unfold processChunk
    by_cases hl : findCol c.header "label" "label" ∈ c.header
    · rw [if_pos hl, if_neg (fun hand => hnm (hfc ▸ hand.2))]
    · rw [if_neg hl]
  · have hfc : findCol c.header "label" "label" = "label" := findCol_default _ _ _ h
    have hnm : "label" ∉ c.header := key_not_mem _ _ h (by decide)
    unfold processChunk
    rw [if_neg (fun hmem => hnm (hfc ▸ hmem))]

theorem schema_error_witness :
    processChunk { header := ["identifier", "title", "category"], rows := [] } =
      Except.error "KeyError" :=
  schema_error_on_unresolved_columns
    { header := ["identifier", "title", "category"], rows := [] }
    (Or.inr (Or.inr (by decide)))

/-! ## C1 — label isolation -/

theorem listGetD_lt {α : Type} (d : α) :
    ∀ (l : List α) (i : Nat) (h : i < l.length), l.getD i d = l.get ⟨i, h⟩
  | _ :: _, 0, _ => rfl
  | _ :: l, i + 1, h => listGetD_lt d l i (Nat.lt_of_succ_lt_succ h)
  | [], i, h => absurd h (Nat.not_lt_zero i)

theorem searchTop1Aux_snd_lt (q : List ℚ) (rest : List (List ℚ)) :
    ∀ (i : Nat) (best : ℚ × Nat), best.2 < i →
      (searchTop1Aux q rest i best).2 < i + rest.length := by
  induction rest with
  | nil =>
    intro i best h
    simpa [searchTop1Aux] using h
  | cons v r ih =>
    intro i best h
    simp only [searchTop1Aux]
    by_cases hlt : best.1 < innerProd v q
    · rw [if_pos hlt]
      have := ih (i + 1) (innerProd v q, i) (Nat.lt_succ_self i)
      simp only [List.length_cons]
      omega
    · rw [if_neg hlt]
      have := ih (i + 1) best (Nat.lt_succ_of_lt h)
      simp only [List.length_cons]
      omega

theorem searchTop1_snd_lt (db : List (List ℚ)) (q : List ℚ) (h : db ≠ []) :
    (searchTop1 db q).2 < db.length := by
  cases db with
  | nil => exact absurd rfl h
  | cons v rest =>
    have := searchTop1Aux_snd_lt q rest 1 (innerProd v q, 0) Nat.one_pos
    simp only [searchTop1, List.length_cons]
    omega

/-- Every record produced by `align_vectors_faiss` on the (nonempty) group
`cmekg_df` takes its matched name and matched id from an entity of that very
group. -/
theorem align_matched_mem (encode : String → List ℚ) (threshold : ℚ)
    (names : List String) (cmekg_df : List RefEntity) (hdf : cmekg_df ≠ []) :
    ∀ row ∈ align_vectors_faiss encode threshold names cmekg_df,
      ∃ e ∈ cmekg_df, row.matched_name = some e.name ∧ row.matched_id = some e.id := by
  intro row hrow
  rw [align_vectors_faiss, List.mem_map] at hrow
  obtain ⟨nm, _, hdefn⟩ := hrow
  subst hdefn
  have hidx : (searchTop1 (List.map (fun e => encode e.name) cmekg_df)
      (encode nm)).2 < cmekg_df.length := by
    have hlen : (List.map (fun e => encode e.name) cmekg_df) ≠ [] := by
      intro hnil
      exact hdf (List.map_eq_nil_iff.mp hnil)
    have := searchTop1_snd_lt _ (encode nm) hlen
    simpa using this
  refine ⟨cmekg_df.get ⟨_, hidx⟩, List.get_mem _ _ _, ?_, ?_⟩
  · dsimp only
    rw [listGetD_lt _ cmekg_df _ hidx]
  · dsimp only
    rw [listGetD_lt _ cmekg_df _ hidx]

/-- C1: label isolation. In the output of `EntityAligner.run`, the matched
reference entity of every record (when any) is an element of the reference
group of the OWN label of that record: a mention collected under one label never receives a
`matched_name`/`matched_id` from a reference entity of a different label
group — even when names are identical strings — and a record whose label has
no reference group has no matched entity at all. The nearest-neighbor index
consulted for a mention is built, inside `align_vectors_faiss`, only from
the `cmekg_df` of that label group. The nonemptiness hypothesis is an
invariant of `load_cmekg_data`, whose groups come from pandas `groupby`. -/
theorem label_isolation (encode : String → List ℚ) (threshold : ℚ)
    (cmekg_groups : List (String × List RefEntity))
    (extracted_groups : List (String × List String))
    (hne : ∀ p ∈ cmekg_groups, p.2 ≠ []) :
    ∀ r ∈ runAligner encode threshold cmekg_groups extracted_groups,
      (∀ df, lookupGroup cmekg_groups r.label = some df →
        ∃ e ∈ df, r.matched_name = some e.name ∧ r.matched_id = some e.id) ∧
      (lookupGroup cmekg_groups r.label = none →
        r.matched_name = none ∧ r.matched_id = none) := by
  intro r hr
  rw [runAligner, List.mem_flatMap] at hr
  obtain ⟨p, hp, hrg⟩ := hr
  rw [runGroup] at hrg
  cases hlk : lookupGroup cmekg_groups p.1 with
  | none =>
    rw [hlk] at hrg
    rw [List.mem_map] at hrg
    obtain ⟨nm, _, hrec⟩ := hrg
    subst hrec
    refine ⟨?_, fun _ => ⟨rfl, rfl⟩⟩
    intro df hdf
    have hdf2 : lookupGroup cmekg_groups p.1 = some df := hdf
    rw [hlk] at hdf2
    exact absurd hdf2 (by simp)
  | some df =>
    rw [hlk] at hrg
    rw [List.mem_map] at hrg
    obtain ⟨row, hrow, hrec⟩ := hrg
    have hdfne : df ≠ [] := by
      unfold lookupGroup at hlk
      cases hf : cmekg_groups.find? (fun q => q.1 = p.1) with
      | none =>
        rw [hf] at hlk
        exact absurd hlk (by simp)
      | some q =>
        rw [hf] at hlk
        have hqm := List.mem_of_find?_eq_some hf
        have hq2 : q.2 = df := by simpa using hlk
        rw [← hq2]
        exact hne q hqm
    obtain ⟨e, hem, hn, hi⟩ := align_matched_mem encode threshold p.2 df hdfne row hrow
    subst hrec
    constructor
    · intro df' hdf'
      have hdf2 : lookupGroup cmekg_groups p.1 = some df' := hdf'
      rw [hlk] at hdf2
      have : df = df' := by simpa using hdf2
      subst this
      exact ⟨e, hem, hn, hi⟩
    · intro hnone
      have hdf2 : lookupGroup cmekg_groups p.1 = none := hnone
      rw [hlk] at hdf2
      exact absurd hdf2 (by simp)

/-- Concrete inputs used by the witnesses below. -/
def encW : String → List ℚ := fun _ => []

def entW : RefEntity := { id := "E1", name := "Aspirin", label := "Drug" }

def dfW : List RefEntity := [entW]

def catW : List (String × List RefEntity) := [("Drug", dfW)]

def extW : List (String × List String) := [("Drug", ["阿司匹林"])]

theorem label_isolation_witness :
    ∃ e ∈ dfW,
      ((runAligner encW 0 catW extW).getD 0 default).matched_name = some e.name ∧
      ((runAligner encW 0 catW extW).getD 0 default).matched_id = some e.id :=
  ((label_isolation encW 0 catW extW (by decide))
    ((runAligner encW 0 catW extW).getD 0 default) (by decide)).1 dfW (by decide)

/-! ## C3 — matcher decision rule -/

/-- C3: the global threshold constant is 0.85; for every label that has a
reference group, `run` aligns that group through `align_vectors_faiss` with
the one threshold passed to the aligner (the same constant for every label
group), producing exactly one record per mention (its single k=1 best
match), whose decision is LINK exactly when the best similarity score is
`≥ threshold` and CREATE exactly otherwise. -/
theorem matcher_decision_rule :
    SIMILARITY_THRESHOLD = 85 / 100 ∧
    ∀ (encode : String → List ℚ) (threshold : ℚ)
      (cmekg_groups : List (String × List RefEntity)) (label : String)
      (names : List String) (df : List RefEntity),
      lookupGroup cmekg_groups label = some df →
      runGroup encode threshold cmekg_groups (label, names) =
        (align_vectors_faiss encode threshold names df).map
          (fun r => { r with label := label }) ∧
      (align_vectors_faiss encode threshold names df).length = names.length ∧
      ∀ i, i < names.length →
        (((align_vectors_faiss encode threshold names df).getD i default).action =
            "🔗 Link Existing" ↔
          (searchTop1 (List.map (fun e => encode e.name) df)
            (encode (names.getD i ""))).1 ≥ threshold) ∧
        (((align_vectors_faiss encode threshold names df).getD i default).action =
            "🆕 Create New" ↔
          ¬ (searchTop1 (List.map (fun e => encode e.name) df)
            (encode (names.getD i ""))).1 ≥ threshold) := by
  constructor
  · norm_num [SIMILARITY_THRESHOLD]
  · intro encode threshold cmekg_groups label names df hlk
    refine ⟨?_, ?_, ?_⟩
    · simp only [runGroup, hlk]
    · simp [align_vectors_faiss]
    · intro i hi
      rw [listGetD_lt "" names i hi]
      unfold align_vectors_faiss
      rw [listGetDMap_lt _ _ _ _ hi]
      dsimp only
      by_cases hs : (searchTop1 (List.map (fun e => encode e.name) df)
          (encode (names.get ⟨i, hi⟩))).1 ≥ threshold
      · rw [if_pos hs]
        exact ⟨⟨fun _ => hs, fun _ => rfl⟩,
          ⟨fun habs => absurd habs (by decide), fun habs => absurd hs habs⟩⟩
      · rw [if_neg hs]
        exact ⟨⟨fun habs => absurd habs (by decide), fun hl => absurd hl hs⟩,
          ⟨fun _ => hs, fun _ => rfl⟩⟩

theorem matcher_decision_rule_witness :
    SIMILARITY_THRESHOLD = 85 / 100 ∧
    (((align_vectors_faiss encW 0 ["头痛"] dfW).getD 0 default).action =
        "🔗 Link Existing" ↔
      (searchTop1 (List.map (fun e => encW e.name) dfW)
        (encW (["头痛"].getD 0 ""))).1 ≥ 0) :=
  ⟨matcher_decision_rule.1,
    ((matcher_decision_rule.2 encW 0 catW "Drug" ["头痛"] dfW (by decide)).2.2
      0 (by decide)).1⟩

/-! ## C2 — idempotent ingestion -/

/-- All three MERGE targets of a cleaned triple are already present. -/
def tripletPresent (g : Graph) (t : Triplet) : Bool :=
  hasNode g t.start_label t.start_name && hasNode g t.stop_label t.stop_name &&
    hasEdge g t

theorem mergeNode_nodes_extend (g : Graph) (l n : String) (now : Nat) :
    ∃ r, (mergeNode g l n now).nodes = g.nodes ++ r := by
  unfold mergeNode
  by_cases h : hasNode g l n = true
  · rw [if_pos h]
    exact ⟨[], (List.append_nil _).symm⟩
  · rw [if_neg h]
    exact ⟨_, rfl⟩

theorem mergeNode_edges (g : Graph) (l n : String) (now : Nat) :
    (mergeNode g l n now).edges = g.edges := by
  unfold mergeNode
  by_cases h : hasNode g l n = true
  · rw [if_pos h]
  · rw [if_neg h]

theorem mergeEdge_nodes (g : Graph) (t : Triplet) (now : Nat) :
    (mergeEdge g t now).nodes = g.nodes := by
  unfold mergeEdge
  by_cases h : hasEdge g t = true
  · rw [if_pos h]
  · rw [if_neg h]

theorem mergeEdge_edges_extend (g : Graph) (t : Triplet) (now : Nat) :
    ∃ r, (mergeEdge g t now).edges = g.edges ++ r := by
  unfold mergeEdge
  by_cases h : hasEdge g t = true
  · rw [if_pos h]
    exact ⟨[], (List.append_nil _).symm⟩
  · rw [if_neg h]
    exact ⟨_, rfl⟩

theorem writeTriplet_nodes_extend (g : Graph) (t : Triplet) (now : Nat) :
    ∃ r, (writeTriplet g t now).nodes = g.nodes ++ r := by
  unfold writeTriplet
  obtain ⟨r1, h1⟩ := mergeNode_nodes_extend g t.start_label t.start_name now
  obtain ⟨r2, h2⟩ := mergeNode_nodes_extend (mergeNode g t.start_label t.start_name now)
    t.stop_label t.stop_name now
  rw [mergeEdge_nodes, h2, h1, List.append_assoc]
  exact ⟨r1 ++ r2, rfl⟩

theorem writeTriplet_edges_extend (g : Graph) (t : Triplet) (now : Nat) :
    ∃ r, (writeTriplet g t now).edges = g.edges ++ r := by
  unfold writeTriplet
  obtain ⟨r, h⟩ := mergeEdge_edges_extend
    (mergeNode (mergeNode g t.start_label t.start_name now) t.stop_label t.stop_name now)
    t now
  rw [h, mergeNode_edges, mergeNode_edges]
  exact ⟨r, rfl⟩

theorem hasNode_extend {g g' : Graph} {lab n : String}
    (hext : ∃ r, g'.nodes = g.nodes ++ r) (h : hasNode g lab n = true) :
    hasNode g' lab n = true := by
  obtain ⟨r, hr⟩ := hext
  unfold hasNode at h ⊢
  rw [hr, List.any_append, h, Bool.true_or]

theorem hasEdge_extend {g g' : Graph} {t : Triplet}
    (hext : ∃ r, g'.edges = g.edges ++ r) (h : hasEdge g t = true) :
    hasEdge g' t = true := by
  obtain ⟨r, hr⟩ := hext
  unfold hasEdge at h ⊢
  rw [hr, List.any_append, h, Bool.true_or]

theorem tripletPresent_writeTriplet_mono {g : Graph} {t : Triplet}
    (h : tripletPresent g t = true) (t' : Triplet) (now : Nat) :
    tripletPresent (writeTriplet g t' now) t = true := by
  unfold tripletPresent at h ⊢
  rw [Bool.and_eq_true, Bool.and_eq_true] at h
  obtain ⟨⟨h1, h2⟩, h3⟩ := h
  rw [Bool.and_eq_true, Bool.and_eq_true]
  exact ⟨⟨hasNode_extend (writeTriplet_nodes_extend g t' now) h1,
    hasNode_extend (writeTriplet_nodes_extend g t' now) h2⟩,
    hasEdge_extend (writeTriplet_edges_extend g t' now) h3⟩

theorem hasNode_mergeNode_self (g : Graph) (l n : String) (now : Nat) :
    hasNode (mergeNode g l n now) l n = true := by
  unfold mergeNode
  by_cases h : hasNode g l n = true
  · rw [if_pos h]
    exact h
  · rw [if_neg h]
    unfold hasNode
    simp

theorem hasEdge_mergeEdge_self (g : Graph) (t : Triplet) (now : Nat) :
    hasEdge (mergeEdge g t now) t = true := by
  unfold mergeEdge
  by_cases h : hasEdge g t = true
  · rw [if_pos h]
    exact h
  · rw [if_neg h]
    unfold hasEdge
    simp

theorem tripletPresent_writeTriplet_self (g : Graph) (t : Triplet) (now : Nat) :
    tripletPresent (writeTriplet g t now) t = true := by
  unfold tripletPresent writeTriplet
  rw [Bool.and_eq_true, Bool.and_eq_true]
  refine ⟨⟨?_, ?_⟩, hasEdge_mergeEdge_self _ t now⟩
  · have h1 := hasNode_mergeNode_self g t.start_label t.start_name now
    have h2 := hasNode_extend (mergeNode_nodes_extend
      (mergeNode g t.start_label t.start_name now) t.stop_label t.stop_name now) h1
    unfold hasNode at h2 ⊢
    rw [mergeEdge_nodes]
    exact h2
  · have h2 := hasNode_mergeNode_self
      (mergeNode g t.start_label t.start_name now) t.stop_label t.stop_name now
    unfold hasNode at h2 ⊢
    rw [mergeEdge_nodes]
    exact h2

theorem mergeNode_of_present {g : Graph} {l n : String} (now : Nat)
    (h : hasNode g l n = true) : mergeNode g l n now = g := by
  unfold mergeNode
  rw [if_pos h]

theorem mergeEdge_of_present {g : Graph} {t : Triplet} (now : Nat)
    (h : hasEdge g t = true) : mergeEdge g t now = g := by
  unfold mergeEdge
  rw [if_pos h]

theorem writeTriplet_of_present {g : Graph} {t : Triplet} (now : Nat)
    (h : tripletPresent g t = true) : writeTriplet g t now = g := by
  unfold tripletPresent at h
  rw [Bool.and_eq_true, Bool.and_eq_true] at h
  obtain ⟨⟨h1, h2⟩, h3⟩ := h
  unfold writeTriplet
  rw [mergeNode_of_present now h1, mergeNode_of_present now h2,
    mergeEdge_of_present now h3]

/-- Folding `writeTriplet` over a list (one MERGE per `UNWIND` row). -/
def writeAll (g : Graph) (l : List Triplet) (now : Nat) : Graph :=
  l.foldl (fun a t => writeTriplet a t now) g

theorem writeAll_present_mono {g : Graph} {t : Triplet}
    (h : tripletPresent g t = true) (l : List Triplet) (now : Nat) :
    tripletPresent (writeAll g l now) t = true := by
  induction l generalizing g with
  | nil => exact h
  | cons a l ih => exact ih (tripletPresent_writeTriplet_mono h a now)

theorem writeAll_present_mem {t : Triplet} (g : Graph) (l : List Triplet)
    (now : Nat) (h : t ∈ l) : tripletPresent (writeAll g l now) t = true := by
  induction l generalizing g with
  | nil => exact absurd h (List.not_mem_nil t)
  | cons a l ih =>
    cases List.mem_cons.mp h with
    | inl heq =>
      subst heq
      exact writeAll_present_mono (tripletPresent_writeTriplet_self g t now) l now
    | inr hmem => exact ih _ hmem

theorem writeAll_of_present (g : Graph) (l : List Triplet) (now : Nat)
    (h : ∀ t ∈ l, tripletPresent g t = true) : writeAll g l now = g := by
  induction l with
  | nil => rfl
  | cons a l ih =>
    unfold writeAll
    rw [List.foldl_cons, writeTriplet_of_present now (h a (List.mem_cons_self a l))]
    exact ih (fun t ht => h t (List.mem_cons_of_mem a ht))

theorem batch_import_eq_writeAll (g : Graph) (ts : List Triplet) (now : Nat) :
    batch_import g ts now =
      writeAll g ((groupTriplets ts).flatMap (fun p => p.2)) now := by
  unfold batch_import
  generalize groupTriplets ts = gs
  induction gs generalizing g with
  | nil => rfl
  | cons p gs ih =>
    rw [List.foldl_cons, List.flatMap_cons]
    rw [ih]
    unfold writeAll
    rw [List.foldl_append]

/-- C2: idempotent ingestion. Under the MERGE upsert semantics of the graph
store (a node is created only if no node with the same (label, name) exists;
an edge only if no edge with the same (subject, type, object) exists; the
`ON CREATE` attributes are stamped only at first creation), running
`batch_import` twice on the same list of cleaned triples — even at a
different timestamp — leaves the graph exactly as running it once. -/
theorem batch_import_idempotent (g : Graph) (ts : List Triplet) (n1 n2 : Nat) :
    batch_import (batch_import g ts n1) ts n2 = batch_import g ts n1 := by
  rw [batch_import_eq_writeAll g ts n1, batch_import_eq_writeAll _ ts n2]
  apply writeAll_of_present
  intro t ht
  exact writeAll_present_mem g _ n1 ht

/-- Triples used by the C2 witness: the same fact contributed twice. -/
def tripletW : Triplet :=
  { start_name := "Aspirin", start_label := "Drug", start_is_new := false,
    stop_name := "头痛", stop_label := "Disease", stop_is_new := true,
    rel_type := "TREATS", source := "doc1.pdf" }

theorem batch_import_idempotent_witness :
    batch_import (batch_import { nodes := [], edges := [] } [tripletW, tripletW] 5)
        [tripletW, tripletW] 9 =
      batch_import { nodes := [], edges := [] } [tripletW, tripletW] 5 :=
  batch_import_idempotent { nodes := [], edges := [] } [tripletW, tripletW] 5 9

/-! ## C7 — missing required input (corrected) -/

/-- An alignment CSV row used by the C7 theorems. -/
def rowW : AlignCsvRow :=
  { extracted_name := "A", label := PyVal.str "Drug",
    action := "🔗 Link Existing", matched_name := "Aspirin" }

/-- A well-formed raw triple used by the C7 theorems. -/
def rawW : RawTriple :=
  { start := some "A", start_label := some "Drug", stop := some "B",
    stop_label := some "Disease", type_ := some "TREATS" }

def filesW : List (List Item) := [[{ source_file := "doc1", extraction := some [rawW] }]]

/-- C7 counterexample: the claim says a missing alignment artifact aborts the
ingestion run with a fatal error and a non-zero exit status. In the code,
`load_alignment_map` on a missing file logs and RETURNS the empty mapping,
and the main flow of the importer then runs to completion: here it quietly
ingests the triples with every endpoint defaulted to CREATE, producing a
normal final graph instead of aborting. -/
theorem missing_input_counterexample :
    load_alignment_map false [rowW] = [] ∧
    importerMain false [rowW] true filesW { nodes := [], edges := [] } 7 =
      { nodes := [{ label := "Drug", name := "A", source := "PDF_Extraction",
                    created_at := 7 },
                  { label := "Disease", name := "B", source := "PDF_Extraction",
                    created_at := 7 }],
        edges := [{ start_label := "Drug", start_name := "A", rel_type := "TREATS",
                    stop_label := "Disease", stop_name := "B", source := "doc1",
                    confidence := "High", created_at := 7 }] } :=
  ⟨rfl, by decide⟩

/-- C7 amended: only the matcher stage treats a missing source file as fatal
(`load_cmekg_data` exits with status 1). In the ingestion stage a missing
alignment artifact yields an empty mapping and a missing triples source
yields an empty triple list, and the run continues to normal completion
(exit status 0) instead of aborting. -/
theorem missing_input_amended :
    (∀ chunks, load_cmekg_data false chunks = LoadResult.exitFatal 1) ∧
    (∀ rows, load_alignment_map false rows = []) ∧
    (∀ files mapping, prepare_data false files mapping = []) ∧
    (∀ rows te files g now, importerMain false rows te files g now =
      batch_import g (prepare_data te files []) now) :=
  ⟨fun _ => rfl, fun _ => rfl, fun _ _ => rfl, fun _ _ _ _ _ => rfl⟩

theorem missing_input_amended_witness :
    load_cmekg_data false [] = LoadResult.exitFatal 1 ∧
    load_alignment_map false [rowW] = [] ∧
    prepare_data false filesW [] = [] ∧
    importerMain false [rowW] true filesW { nodes := [], edges := [] } 7 =
      batch_import { nodes := [], edges := [] } (prepare_data true filesW []) 7 :=
  ⟨missing_input_amended.1 [], missing_input_amended.2.1 [rowW],
    missing_input_amended.2.2.1 filesW [],
    missing_input_amended.2.2.2 [rowW] true filesW { nodes := [], edges := [] } 7⟩

/-! ## C8 — per-triple malformed-field handling (corrected) -/

/-- A triple missing the required `type_` field. -/
def badW : RawTriple :=
  { start := some "a", start_label := some "L", stop := some "b",
    stop_label := some "L", type_ := none }

/-- A well-formed triple. -/
def goodW : RawTriple :=
  { start := some "c", start_label := some "L", stop := some "d",
    stop_label := some "L", type_ := some "R" }

/-- The cleaned triple `goodW` alone would produce. -/
def cleanGoodW : Triplet :=
  { start_name := "c", start_label := "L", start_is_new := true,
    stop_name := "d", stop_label := "L", stop_is_new := true,
    rel_type := "R", source := "f" }

/-- C8 counterexample: the claim says only the malformed triple is dropped
and every well-formed triple after it in the same file still appears. In the
code the per-file `try/except` catches the `KeyError`, so a file holding a
malformed triple followed by a well-formed one yields NO output for the
well-formed triple either — even though that triple on its own cleans fine. -/
theorem malformed_triple_counterexample :
    processTriple [] "f" goodW = Except.ok cleanGoodW ∧
    prepare_data true [[{ source_file := "f", extraction := some [badW, goodW] }]]
      [] = [] :=
  ⟨rfl, rfl⟩

theorem processTriple_ok_of_wf (m : List ((String × String) × MapInfo))
    (src : String) (t : RawTriple) (h : wellFormed t = true) :
    ∃ c, processTriple m src t = Except.ok c := by
  obtain ⟨o1, o2, o3, o4, o5⟩ := t
  cases o1 <;> cases o2 <;> cases o3 <;> cases o4 <;> cases o5 <;>
    first
    | exact ⟨_, rfl⟩
    | simp [wellFormed] at h

theorem processTriple_error_of_not_wf (m : List ((String × String) × MapInfo))
    (src : String) (t : RawTriple) (h : wellFormed t = false) :
    processTriple m src t = Except.error "KeyError" := by
  obtain ⟨o1, o2, o3, o4, o5⟩ := t
  cases o1 <;> cases o2 <;> cases o3 <;> cases o4 <;> cases o5 <;>
    first
    | rfl
    | simp [wellFormed] at h

/-- C8 amended: a raw triple missing one of the five required fields is
dropped with a warning TOGETHER WITH every later triple of the same file;
the triples already cleaned earlier in that file survive (they were appended
before the exception), files are processed independently so no other file is
affected, and no such triple aborts the run. -/
theorem malformed_triple_amended (mapping : List ((String × String) × MapInfo))
    (src : String) (pre : List RawTriple) (bad : RawTriple)
    (post : List RawTriple) (hpre : ∀ t ∈ pre, wellFormed t = true)
    (hbad : wellFormed bad = false) :
    processTriples mapping src (pre ++ bad :: post) =
      (pre.filterMap (fun t => (processTriple mapping src t).toOption), true) ∧
    ∀ files1 files2 : List (List Item),
      prepare_data true (files1 ++ files2) mapping =
        prepare_data true files1 mapping ++ prepare_data true files2 mapping := by
  constructor
  · induction pre with
    | nil =>
      simp [processTriples, processTriple_error_of_not_wf mapping src bad hbad]
    | cons a pre ih =>
      obtain ⟨c, hc⟩ := processTriple_ok_of_wf mapping src a
        (hpre a (List.mem_cons_self a pre))
      have ih2 := ih (fun t ht => hpre t (List.mem_cons_of_mem a ht))
      simp [processTriples, hc, ih2, List.filterMap_cons, Except.toOption]
  · intro files1 files2
    simp [prepare_data]

theorem malformed_triple_amended_witness :
    processTriples [] "f" ([goodW] ++ badW :: [goodW]) =
      ([goodW].filterMap (fun t => (processTriple [] "f" t).toOption), true) :=
  (malformed_triple_amended [] "f" [goodW] badW [goodW]
    (by decide) (by decide)).1
